import Mathlib

/-!
# Test results of the Autotest plugin (`src/plugins/autotest/testresult.cpp`)

A shallow embedding of the result-kind codec and of the three `outputString`
renderings, followed by the properties proved about them.

Conventions of the embedding.

* `Result::Type` is a C++ enumeration; a kind is represented by its numeric value,
  an `Int`, so that the cast `(Result::Type)rt` is the identity.
* The enumeration itself is declared in `testresult.h`.  The numeric values of its
  enumerators are therefore a parameter of the embedding (`ResultEnum`).
* `QString` is represented by `String`.  The only characters the code searches for
  are the line feed and the opening parenthesis, both of which are a single UTF-16
  code unit that is never half of a surrogate pair, so cutting a text at such a
  character is the same on code units and on code points.
* `QList::first()` is only defined on a non-empty list, hence the renderings return
  an `Option`.
-/

namespace Autotest
namespace Internal

/-! ## The enumeration `Result::Type` -/

/-- The numeric values of the enumerators of `Result::Type` that `testresult.cpp`
refers to.  `FIRST_TYPE`, `LAST_TYPE`, `INTERNAL_MESSAGES_BEGIN` and
`INTERNAL_MESSAGES_END` are the range markers of the enumeration. -/
structure ResultEnum where
  Pass : Int
  Fail : Int
  ExpectedFail : Int
  UnexpectedPass : Int
  Skip : Int
  BlacklistedPass : Int
  BlacklistedFail : Int
  Benchmark : Int
  MessageDebug : Int
  MessageWarn : Int
  MessageFatal : Int
  INTERNAL_MESSAGES_BEGIN : Int
  INTERNAL_MESSAGES_END : Int
  Invalid : Int
  FIRST_TYPE : Int
  LAST_TYPE : Int

namespace ResultEnum

/-- The test `type >= INTERNAL_MESSAGES_BEGIN && type <= INTERNAL_MESSAGES_END`. -/
def isInternal (E : ResultEnum) (type : Int) : Prop :=
  E.INTERNAL_MESSAGES_BEGIN ≤ type ∧ type ≤ E.INTERNAL_MESSAGES_END

instance (E : ResultEnum) (type : Int) : Decidable (E.isInternal type) := by
  unfold isInternal; infer_instance

/-- The test `FIRST_TYPE <= rt && rt <= LAST_TYPE`. -/
def inRange (E : ResultEnum) (rt : Int) : Prop :=
  E.FIRST_TYPE ≤ rt ∧ rt ≤ E.LAST_TYPE

instance (E : ResultEnum) (rt : Int) : Decidable (E.inRange rt) := by
  unfold inRange; infer_instance

/-- The eleven kinds that carry a label in `resultToString`, in the order of its
`case` labels. -/
def labelled (E : ResultEnum) : List Int :=
  [E.Pass, E.Fail, E.ExpectedFail, E.UnexpectedPass, E.Skip, E.Benchmark,
   E.MessageDebug, E.MessageWarn, E.MessageFatal, E.BlacklistedPass, E.BlacklistedFail]

/-- What is assumed of the enumeration declared in `testresult.h`: the eleven
labelled kinds and `Invalid` are pairwise distinct values (for the kinds that occur
as `case` labels of one `switch` this is forced by C++), and none of them lies in
the reserved range of internal messages. -/
def WellFormed (E : ResultEnum) : Prop :=
  (E.Invalid :: E.labelled).Nodup ∧ ∀ t ∈ E.Invalid :: E.labelled, ¬ E.isInternal t

instance (E : ResultEnum) : Decidable E.WellFormed := by
  unfold WellFormed; infer_instance

end ResultEnum

/-- Modelled from the spec: the enumeration `Result::Type` of `testresult.h`, a file
that is not part of the sources at hand.  The kinds are numbered in the order in which
the specification lists them: the user-facing outcomes, the three message kinds, the
contiguous reserved range of internal messages, and the sentinel `Invalid`, which by
the specification is not the value of any in-range integer.  `FIRST_TYPE` and
`LAST_TYPE` delimit the legal range, which includes the internal range. -/
def Result : ResultEnum where
  Pass := 0
  Fail := 1
  ExpectedFail := 2
  UnexpectedPass := 3
  Skip := 4
  Benchmark := 5
  BlacklistedPass := 6
  BlacklistedFail := 7
  MessageDebug := 8
  MessageWarn := 9
  MessageFatal := 10
  INTERNAL_MESSAGES_BEGIN := 11
  INTERNAL_MESSAGES_END := 18
  Invalid := 19
  FIRST_TYPE := 0
  LAST_TYPE := 18

/-- An enumeration that differs from `Result` only in its upper range marker:
`Invalid` is the last enumerator and `LAST_TYPE` is an alias of it, so that the legal
range ends with `Invalid`.  It is well formed. -/
def ResultLastInvalid : ResultEnum :=
  { Result with LAST_TYPE := 19 }

/-! ## The codec -/

namespace TestResult

/-- `TestResult::resultFromString`.  The `qDebug` call that precedes the final
`return` only writes a diagnostic and does not influence the result. -/
def resultFromString (E : ResultEnum) (resultString : String) : Int :=
  if resultString = "pass" then E.Pass
  else if resultString = "fail" then E.Fail
  else if resultString = "xfail" then E.ExpectedFail
  else if resultString = "xpass" then E.UnexpectedPass
  else if resultString = "skip" then E.Skip
  else if resultString = "qdebug" then E.MessageDebug
  else if resultString = "warn" ∨ resultString = "qwarn" then E.MessageWarn
  else if resultString = "qfatal" then E.MessageFatal
  else if resultString = "bpass" then E.BlacklistedPass
  else if resultString = "bfail" then E.BlacklistedFail
  else E.Invalid

/-- `TestResult::toResultType`. -/
def toResultType (E : ResultEnum) (rt : Int) : Int :=
  if rt < E.FIRST_TYPE ∨ rt > E.LAST_TYPE then E.Invalid
  else rt

/-- `TestResult::resultToString`.  The `switch` is rendered as a chain of tests in
the order of its `case` labels; C++ requires the labels of one `switch` to be
distinct, so the order is immaterial for every enumeration the program compiles
with. -/
def resultToString (E : ResultEnum) (type : Int) : String :=
  if E.INTERNAL_MESSAGES_BEGIN ≤ type ∧ type ≤ E.INTERNAL_MESSAGES_END then ""
  else if type = E.Pass then "PASS"
  else if type = E.Fail then "FAIL"
  else if type = E.ExpectedFail then "XFAIL"
  else if type = E.UnexpectedPass then "XPASS"
  else if type = E.Skip then "SKIP"
  else if type = E.Benchmark then "BENCH"
  else if type = E.MessageDebug then "DEBUG"
  else if type = E.MessageWarn then "WARN"
  else if type = E.MessageFatal then "FATAL"
  else if type = E.BlacklistedPass then "BPASS"
  else if type = E.BlacklistedFail then "BFAIL"
  else "UNKNOWN"

end TestResult

/-- The tokens that `resultFromString` recognises. -/
def resultTokens : List String :=
  ["pass", "fail", "xfail", "xpass", "skip", "qdebug", "warn", "qwarn", "qfatal",
   "bpass", "bfail"]

/-! ## The `QString` operations used by the renderings -/

namespace QString

/-- `QString::isEmpty()`. -/
def isEmpty (s : String) : Bool := s.data.isEmpty

/-- `QString::size()`. -/
def size (s : String) : Int := s.data.length

/-- The forward search behind `QString::indexOf(QChar)`: the position of the first
occurrence of `c` at or after position `i`, where `cs` holds the characters from
position `i` on, or `-1` when there is none. -/
def indexOfFrom (c : Char) : List Char → Nat → Int
  | [], _ => -1
  | x :: xs, i => if x = c then (i : Int) else indexOfFrom c xs (i + 1)

/-- `QString::indexOf(QChar)` with the default start position `0`. -/
def indexOf (s : String) (c : Char) : Int := indexOfFrom c s.data 0

/-- `QString::left(int n)`: the `n` leftmost characters; the entire string when `n`
is negative or not smaller than `size()`. -/
def left (s : String) (n : Int) : String :=
  if n < 0 ∨ n ≥ size s then s else ⟨s.data.take n.toNat⟩

/-- `QString::mid(int position)` with the default length `-1` (everything that is
available from `position`): a null string when `position` exceeds the size, the
entire string when `position` is negative, and the characters from `position` on
otherwise. -/
def mid (s : String) (position : Int) : String :=
  if position > size s then ""
  else if position < 0 then s
  else ⟨s.data.drop position.toNat⟩

/-- The loop of `QString::split(QChar)` with the default `KeepEmptyParts`: `cur` holds,
in reverse, the characters read since the last separator. -/
def splitFrom (sep : Char) : List Char → List Char → List String
  | [], cur => [⟨cur.reverse⟩]
  | c :: cs, cur =>
    if c = sep then ⟨cur.reverse⟩ :: splitFrom sep cs [] else splitFrom sep cs (c :: cur)

/-- `QString::split(QChar)` with the default `KeepEmptyParts`. -/
def split (s : String) (sep : Char) : List String := splitFrom sep s.data []

/-- `QString::fromLatin1(" (%1)").arg(a)`: the single place marker `%1` of the
pattern is replaced by `a`. -/
def argParen (a : String) : String := " (" ++ a ++ ")"

end QString

/-- `QList::first()`, which requires the list not to be empty. -/
def QStringList.first : List String → Option String
  | [] => none
  | x :: _ => some x

/-! ## The result objects and their renderings -/

/-- The data members of `TestResult`. -/
structure TestResult where
  m_name : String
  m_result : Int
  m_description : String

/-- `QTestResult`: a `TestResult` with a function name and a data tag. -/
structure QTestResult extends TestResult where
  m_function : String
  m_dataTag : String

/-- `GTestResult`: a `TestResult` with the name of a test set. -/
structure GTestResult extends TestResult where
  m_testSetName : String

/-- `TestResult::outputString`. -/
def TestResult.outputString (r : TestResult) (selected : Bool) : Option String :=
  if selected then some r.m_description
  else QStringList.first (QString.split r.m_description '\n')

/-- `QTestResult::outputString`.  The `switch` over `result()` is rendered as a
chain of tests; its `case` labels are distinct enumerators. -/
def QTestResult.outputString (E : ResultEnum) (r : QTestResult) (selected : Bool) :
    Option String :=
  let desc := r.m_description
  let className := r.m_name
  if r.m_result = E.Pass ∨ r.m_result = E.Fail ∨ r.m_result = E.ExpectedFail
      ∨ r.m_result = E.UnexpectedPass ∨ r.m_result = E.BlacklistedFail
      ∨ r.m_result = E.BlacklistedPass then
    let output := className ++ "::" ++ r.m_function
    let output :=
      if !QString.isEmpty r.m_dataTag then output ++ QString.argParen r.m_dataTag
      else output
    let output :=
      if selected && !QString.isEmpty desc then output ++ "\n" ++ desc else output
    some output
  else if r.m_result = E.Benchmark then
    let output := className ++ "::" ++ r.m_function
    let output :=
      if !QString.isEmpty r.m_dataTag then output ++ QString.argParen r.m_dataTag
      else output
    let output :=
      if !QString.isEmpty desc then
        let breakPos := QString.indexOf desc '('
        let output := output ++ ": " ++ QString.left desc breakPos
        if selected then output ++ "\n" ++ QString.mid desc breakPos else output
      else output
    some output
  else
    let output := desc
    if !selected then QStringList.first (QString.split output '\n') else some output

/-- `GTestResult::outputString`. -/
def GTestResult.outputString (E : ResultEnum) (r : GTestResult) (selected : Bool) :
    Option String :=
  let desc := r.m_description
  if r.m_result = E.Pass ∨ r.m_result = E.Fail then
    let output := r.m_testSetName
    let output :=
      if selected && !QString.isEmpty desc then output ++ "\n" ++ desc else output
    some output
  else
    let output := desc
    if !selected then QStringList.first (QString.split output '\n') else some output

/-- The label `name + "::" + functionName`, followed by `" (" + dataTag + ")"` when
the data tag is not empty. -/
def QTestResult.label (r : QTestResult) : String :=
  r.m_name ++ "::" ++ r.m_function ++
    (if r.m_dataTag = "" then "" else " (" ++ r.m_dataTag ++ ")")

/-- A benchmark result of the Qt Test variant whose description is not empty and has
no opening parenthesis. -/
def benchmarkWithoutParenthesis : QTestResult :=
  ⟨⟨"Suite", Result.Benchmark, "fast"⟩, "testFoo", ""⟩

/-! ## Colours -/

/-- A `QColor`, by its red, green, blue and alpha components. -/
structure QColor where
  red : Nat
  green : Nat
  blue : Nat
  alpha : Nat
deriving DecidableEq

/-- `QColor("transparent")`: the named colour "transparent", a black whose alpha
component is zero. -/
def QColor.transparent : QColor := ⟨0, 0, 0, 0⟩

/-- The keys of `Utils::Theme::Color` that `colorForType` asks the theme for. -/
inductive ThemeColor where
  | OutputPanes_TestPassTextColor
  | OutputPanes_TestFailTextColor
  | OutputPanes_TestXFailTextColor
  | OutputPanes_TestXPassTextColor
  | OutputPanes_TestSkipTextColor
  | OutputPanes_TestDebugTextColor
  | OutputPanes_TestWarnTextColor
  | OutputPanes_TestFatalTextColor
  | OutputPanes_StdOutTextColor
deriving DecidableEq

/-- `TestResult::colorForType`.  The theme answered by `Utils::creatorTheme()` is the
argument `creatorTheme`, a function from colour keys to colours. -/
def TestResult.colorForType (E : ResultEnum) (creatorTheme : ThemeColor → QColor)
    (type : Int) : QColor :=
  if E.INTERNAL_MESSAGES_BEGIN ≤ type ∧ type ≤ E.INTERNAL_MESSAGES_END then
    QColor.transparent
  else if type = E.Pass then creatorTheme ThemeColor.OutputPanes_TestPassTextColor
  else if type = E.Fail then creatorTheme ThemeColor.OutputPanes_TestFailTextColor
  else if type = E.ExpectedFail then creatorTheme ThemeColor.OutputPanes_TestXFailTextColor
  else if type = E.UnexpectedPass then
    creatorTheme ThemeColor.OutputPanes_TestXPassTextColor
  else if type = E.Skip then creatorTheme ThemeColor.OutputPanes_TestSkipTextColor
  else if type = E.MessageDebug then creatorTheme ThemeColor.OutputPanes_TestDebugTextColor
  else if type = E.MessageWarn then creatorTheme ThemeColor.OutputPanes_TestWarnTextColor
  else if type = E.MessageFatal then creatorTheme ThemeColor.OutputPanes_TestFatalTextColor
  else if type = E.BlacklistedPass ∨ type = E.BlacklistedFail then
    creatorTheme ThemeColor.OutputPanes_StdOutTextColor
  else creatorTheme ThemeColor.OutputPanes_StdOutTextColor

/-- A theme that gives every key a colour of its own, none of them transparent. -/
def sampleTheme : ThemeColor → QColor
  | ThemeColor.OutputPanes_TestPassTextColor => ⟨0, 160, 0, 255⟩
  | ThemeColor.OutputPanes_TestFailTextColor => ⟨160, 0, 0, 255⟩
  | ThemeColor.OutputPanes_TestXFailTextColor => ⟨40, 128, 24, 255⟩
  | ThemeColor.OutputPanes_TestXPassTextColor => ⟨221, 64, 16, 255⟩
  | ThemeColor.OutputPanes_TestSkipTextColor => ⟨120, 120, 120, 255⟩
  | ThemeColor.OutputPanes_TestDebugTextColor => ⟨50, 147, 150, 255⟩
  | ThemeColor.OutputPanes_TestWarnTextColor => ⟨208, 187, 0, 255⟩
  | ThemeColor.OutputPanes_TestFatalTextColor => ⟨100, 0, 0, 255⟩
  | ThemeColor.OutputPanes_StdOutTextColor => ⟨0, 0, 0, 255⟩

/-! ## Construction -/

/-- `TestResult::TestResult(const QString &name)`: the name is set, the description is
a default-constructed `QString`.  The constructor leaves `m_result` as the class
declaration initialises it; that value is the argument `initial`. -/
def TestResult.withName (initial : Int) (name : String) : TestResult :=
  ⟨name, initial, ""⟩

/-- `TestResult::TestResult()`, which delegates to `TestResult(QString())`. -/
def TestResult.default (initial : Int) : TestResult :=
  TestResult.withName initial ""

/-- Modelled from the spec: the setter `TestResult::setResult` of `testresult.h`, a file
that is not part of the sources at hand; it stores the kind. -/
def TestResult.setResult (r : TestResult) (type : Int) : TestResult :=
  { r with m_result := type }

/-- Modelled from the spec: the setter `TestResult::setDescription` of `testresult.h`, a
file that is not part of the sources at hand; it stores the description. -/
def TestResult.setDescription (r : TestResult) (description : String) : TestResult :=
  { r with m_description := description }

/-- `FaultyTestResult::FaultyTestResult(Result::Type, const QString &)`: the base
object is default-constructed, then the two setters are called.  A `FaultyTestResult`
has no data member of its own. -/
def FaultyTestResult.new (initial : Int) (result : Int) (description : String) :
    TestResult :=
  ((TestResult.default initial).setResult result).setDescription description

/-! ## The codec: properties -/

section Codec

open TestResult

/-- The negation of the range test of `toResultType` is membership in the range. -/
theorem inRange_iff_not_out (E : ResultEnum) (rt : Int) :
    E.inRange rt ↔ ¬ (rt < E.FIRST_TYPE ∨ rt > E.LAST_TYPE) := by
  unfold ResultEnum.inRange
  constructor
  · intro h; omega
  · intro h; omega

/-- On an in-range integer `toResultType` is the cast, that is, the identity on
numeric values. -/
theorem toResultType_of_inRange (E : ResultEnum) (rt : Int) (h : E.inRange rt) :
    toResultType E rt = rt := by
  unfold toResultType
  rw [if_neg ((inRange_iff_not_out E rt).1 h)]

/-- On an out-of-range integer `toResultType` is `Invalid`. -/
theorem toResultType_of_not_inRange (E : ResultEnum) (rt : Int) (h : ¬ E.inRange rt) :
    toResultType E rt = E.Invalid := by
  unfold toResultType
  rw [if_pos (not_not.1 (mt (inRange_iff_not_out E rt).2 h))]

/-- Whether an in-range integer can be turned into `Invalid` is decided by the
declaration of the enumeration alone: it cannot exactly when the numeric value of
`Invalid` is itself outside `[FIRST_TYPE, LAST_TYPE]`. -/
theorem toResultType_inRange_ne_invalid_iff (E : ResultEnum) :
    (∀ rt : Int, E.inRange rt → toResultType E rt ≠ E.Invalid) ↔ ¬ E.inRange E.Invalid := by
  constructor
  · intro h hin
    exact h E.Invalid hin (toResultType_of_inRange E E.Invalid hin)
  · intro h rt hrt heq
    rw [toResultType_of_inRange E rt hrt] at heq
    exact h (heq ▸ hrt)

/-- C1: `resultFromString` maps each of the eleven tokens to its kind ("warn" and
"qwarn" both to `MessageWarn`) and every other string to `Invalid`; the match is
exact and case-sensitive, so "PASS", "pas", "pass " and the empty string give
`Invalid`. -/
theorem resultFromString_table (E : ResultEnum) :
    (resultFromString E "pass" = E.Pass
      ∧ resultFromString E "fail" = E.Fail
      ∧ resultFromString E "xfail" = E.ExpectedFail
      ∧ resultFromString E "xpass" = E.UnexpectedPass
      ∧ resultFromString E "skip" = E.Skip
      ∧ resultFromString E "qdebug" = E.MessageDebug
      ∧ resultFromString E "warn" = E.MessageWarn
      ∧ resultFromString E "qwarn" = E.MessageWarn
      ∧ resultFromString E "qfatal" = E.MessageFatal
      ∧ resultFromString E "bpass" = E.BlacklistedPass
      ∧ resultFromString E "bfail" = E.BlacklistedFail)
    ∧ (∀ t : String, t ∉ resultTokens → resultFromString E t = E.Invalid)
    ∧ (resultFromString E "PASS" = E.Invalid
      ∧ resultFromString E "pas" = E.Invalid
      ∧ resultFromString E "pass " = E.Invalid
      ∧ resultFromString E "" = E.Invalid) := by
  refine ⟨?_, ?_, ?_⟩
  · simp [resultFromString]
  · intro t ht
    simp only [resultTokens, List.mem_cons, List.mem_singleton, List.not_mem_nil,
      not_or, or_false] at ht
    obtain ⟨h1, h2, h3, h4, h5, h6, h7, h8, h9, h10, h11⟩ := ht
    simp [resultFromString, h1, h2, h3, h4, h5, h6, h7, h8, h9, h10, h11]
  · simp [resultFromString]

/-- Witness of C1 on the modelled enumeration: the string "Pass" is not a token and
is mapped to `Invalid`. -/
theorem resultFromString_table_witness :
    "Pass" ∉ resultTokens ∧ resultFromString Result "Pass" = Result.Invalid :=
  ⟨by decide, (resultFromString_table Result).2.1 "Pass" (by decide)⟩

/-- C2: `toResultType rt` is the kind whose numeric value is `rt` when
`FIRST_TYPE <= rt <= LAST_TYPE`, whether or not `rt` lies in the internal range, and
is `Invalid` when `rt < FIRST_TYPE` or `rt > LAST_TYPE`. -/
theorem toResultType_range (E : ResultEnum) (rt : Int) :
    (E.FIRST_TYPE ≤ rt ∧ rt ≤ E.LAST_TYPE → toResultType E rt = rt)
    ∧ (rt < E.FIRST_TYPE ∨ rt > E.LAST_TYPE → toResultType E rt = E.Invalid) := by
  constructor
  · intro h
    exact toResultType_of_inRange E rt h
  · intro h
    unfold toResultType
    rw [if_pos h]

/-- Witness of C2: an integer of the internal range is kept, an integer above
`LAST_TYPE` becomes `Invalid`. -/
theorem toResultType_range_witness :
    (Result.isInternal 12 ∧ toResultType Result 12 = 12)
    ∧ toResultType Result 25 = Result.Invalid :=
  ⟨⟨by decide, (toResultType_range Result 12).1 (by decide)⟩,
    (toResultType_range Result 25).2 (by decide)⟩

/-- C3, as stated, fails on a well-formed enumeration whose `LAST_TYPE` is `Invalid`:
the in-range integer 19 is turned into `Invalid`. -/
theorem toResultType_last_type_invalid_counterexample :
    ResultLastInvalid.WellFormed
    ∧ (ResultLastInvalid.FIRST_TYPE ≤ 19 ∧ 19 ≤ ResultLastInvalid.LAST_TYPE)
    ∧ toResultType ResultLastInvalid 19 = ResultLastInvalid.Invalid := by
  decide

/-- C3, amended: `toResultType rt` is `Invalid` exactly when `rt` is out of range or
`rt` is the numeric value of `Invalid` itself; so an in-range integer other than that
value is never turned into `Invalid`, and `Invalid` is answered only for an
out-of-range integer or for the value of `Invalid`. -/
theorem toResultType_eq_invalid_iff (E : ResultEnum) (rt : Int) :
    (toResultType E rt = E.Invalid
      ↔ (rt < E.FIRST_TYPE ∨ rt > E.LAST_TYPE) ∨ rt = E.Invalid)
    ∧ (E.FIRST_TYPE ≤ rt ∧ rt ≤ E.LAST_TYPE → rt ≠ E.Invalid →
        toResultType E rt ≠ E.Invalid) := by
  have key : toResultType E rt = E.Invalid
      ↔ (rt < E.FIRST_TYPE ∨ rt > E.LAST_TYPE) ∨ rt = E.Invalid := by
    by_cases h : E.inRange rt
    · rw [toResultType_of_inRange E rt h]
      constructor
      · intro heq
        exact Or.inr heq
      · intro hor
        rcases hor with hout | heq
        · exact absurd hout ((inRange_iff_not_out E rt).1 h)
        · exact heq
    · rw [toResultType_of_not_inRange E rt h]
      constructor
      · intro _
        exact Or.inl (not_not.1 (mt (inRange_iff_not_out E rt).2 h))
      · intro _
        rfl
  refine ⟨key, ?_⟩
  intro hin hne heq
  rcases key.1 heq with hout | hinv
  · exact (inRange_iff_not_out E rt).1 hin hout
  · exact hne hinv

/-- Witness of the amended C3 on the enumeration whose `LAST_TYPE` is `Invalid`: the
in-range integer 18 is not turned into `Invalid`. -/
theorem toResultType_eq_invalid_iff_witness :
    (ResultLastInvalid.FIRST_TYPE ≤ 18 ∧ 18 ≤ ResultLastInvalid.LAST_TYPE)
    ∧ (18 : Int) ≠ ResultLastInvalid.Invalid
    ∧ toResultType ResultLastInvalid 18 ≠ ResultLastInvalid.Invalid :=
  ⟨by decide, by decide,
    (toResultType_eq_invalid_iff ResultLastInvalid 18).2 (by decide) (by decide)⟩

/-- C4: `resultToString` gives the empty string on the internal range, the labels
"PASS", "FAIL", "XFAIL", "XPASS", "SKIP", "BENCH", "DEBUG", "WARN", "FATAL", "BPASS",
"BFAIL" on the eleven labelled kinds, and "UNKNOWN" on every other kind, `Invalid`
included. -/
theorem resultToString_table (E : ResultEnum) (hE : E.WellFormed) :
    (∀ t : Int, E.isInternal t → resultToString E t = "")
    ∧ (resultToString E E.Pass = "PASS"
      ∧ resultToString E E.Fail = "FAIL"
      ∧ resultToString E E.ExpectedFail = "XFAIL"
      ∧ resultToString E E.UnexpectedPass = "XPASS"
      ∧ resultToString E E.Skip = "SKIP"
      ∧ resultToString E E.Benchmark = "BENCH"
      ∧ resultToString E E.MessageDebug = "DEBUG"
      ∧ resultToString E E.MessageWarn = "WARN"
      ∧ resultToString E E.MessageFatal = "FATAL"
      ∧ resultToString E E.BlacklistedPass = "BPASS"
      ∧ resultToString E E.BlacklistedFail = "BFAIL")
    ∧ (∀ t : Int, ¬ E.isInternal t → t ∉ E.labelled → resultToString E t = "UNKNOWN")
    ∧ resultToString E E.Invalid = "UNKNOWN" := by
  obtain ⟨hnd, hni⟩ := hE
  have hrev := List.nodup_reverse.2 hnd
  simp only [ResultEnum.labelled, ResultEnum.isInternal, List.mem_cons, List.mem_singleton,
    List.not_mem_nil, or_false, forall_eq_or_imp, forall_eq, List.nodup_cons, not_or,
    List.nodup_nil, and_true, not_false_eq_true, List.reverse_cons, List.reverse_nil,
    List.nil_append, List.cons_append, List.singleton_append] at hnd hni hrev
  refine ⟨?_, ?_, ?_, ?_⟩
  · intro t ht
    unfold resultToString
    exact if_pos ht
  · simp only [resultToString, hni, hrev, if_false, if_true, and_self]
  · intro t hint hlab
    simp only [ResultEnum.labelled, List.mem_cons, List.mem_singleton, List.not_mem_nil,
      or_false, not_or] at hlab
    unfold ResultEnum.isInternal at hint
    simp only [resultToString, hint, hlab, if_false]
  · simp only [resultToString, hni, hnd, if_false]

/-- Witness of C4 on the modelled enumeration. -/
theorem resultToString_table_witness :
    Result.WellFormed ∧ resultToString Result Result.Benchmark = "BENCH"
      ∧ resultToString Result Result.Invalid = "UNKNOWN" :=
  ⟨by decide, (resultToString_table Result (by decide)).2.1.2.2.2.2.2.1,
    (resultToString_table Result (by decide)).2.2.2⟩

end Codec

/-! ## The `QString` operations: properties -/

section Strings

/-- `isEmpty` holds of the empty string only. -/
theorem QString.isEmpty_eq_true_iff (s : String) : QString.isEmpty s = true ↔ s = "" := by
  unfold QString.isEmpty
  rw [List.isEmpty_iff]
  constructor
  · intro h
    exact String.ext h
  · intro h
    rw [h]

/-- The negated emptiness test as a proposition. -/
theorem QString.not_isEmpty_eq_true_iff (s : String) :
    (!QString.isEmpty s) = true ↔ s ≠ "" := by
  rw [Bool.not_eq_true', ← Bool.not_eq_true, Ne, QString.isEmpty_eq_true_iff]

/-- The first piece produced by the splitting loop: what was read since the last
separator, followed by the characters up to the next separator. -/
theorem QString.first_splitFrom (sep : Char) (cs cur : List Char) :
    QStringList.first (QString.splitFrom sep cs cur)
      = some ⟨cur.reverse ++ cs.takeWhile (fun c => !decide (c = sep))⟩ := by
  induction cs generalizing cur with
  | nil => simp [QString.splitFrom, QStringList.first]
  | cons c cs ih =>
    unfold QString.splitFrom
    by_cases h : c = sep
    · simp [h, QStringList.first]
    · rw [if_neg h, ih]
      simp [h, List.takeWhile_cons]

/-- The splitting loop always produces at least one piece. -/
theorem QString.splitFrom_ne_nil (sep : Char) (cs cur : List Char) :
    QString.splitFrom sep cs cur ≠ [] := by
  induction cs generalizing cur with
  | nil => simp [QString.splitFrom]
  | cons c cs ih =>
    unfold QString.splitFrom
    by_cases h : c = sep
    · simp [h]
    · rw [if_neg h]
      exact ih _

/-- The first piece of `split`: the characters before the first separator. -/
theorem QString.first_split (s : String) (sep : Char) :
    QStringList.first (QString.split s sep)
      = some ⟨s.data.takeWhile (fun c => !decide (c = sep))⟩ := by
  unfold QString.split
  rw [QString.first_splitFrom]
  simp

/-- Reading up to the first separator of `pre ++ sep :: rest`, where `pre` has no
separator, gives `pre`. -/
theorem takeWhile_ne_append_cons (sep : Char) (pre rest : List Char) (h : sep ∉ pre) :
    (pre ++ sep :: rest).takeWhile (fun c => !decide (c = sep)) = pre := by
  induction pre with
  | nil => simp [List.takeWhile_cons]
  | cons c cs ih =>
    have hc : c ≠ sep := fun e => h (e ▸ List.mem_cons_self _ _)
    have hcs : sep ∉ cs := fun m => h (List.mem_cons_of_mem _ m)
    simp [List.takeWhile_cons, hc, ih hcs]

/-- Reading up to the first separator of a text without separator gives the text. -/
theorem takeWhile_ne_of_not_mem (sep : Char) (l : List Char) (h : sep ∉ l) :
    l.takeWhile (fun c => !decide (c = sep)) = l := by
  induction l with
  | nil => rfl
  | cons c cs ih =>
    have hc : c ≠ sep := fun e => h (e ▸ List.mem_cons_self _ _)
    have hcs : sep ∉ cs := fun m => h (List.mem_cons_of_mem _ m)
    simp [List.takeWhile_cons, hc, ih hcs]

/-- The search finds the first occurrence. -/
theorem QString.indexOfFrom_append_cons (c : Char) (pre rest : List Char) (i : Nat)
    (h : c ∉ pre) : QString.indexOfFrom c (pre ++ c :: rest) i = ((i + pre.length : Nat) : Int) := by
  induction pre generalizing i with
  | nil => simp [QString.indexOfFrom]
  | cons x xs ih =>
    have hx : x ≠ c := fun e => h (e ▸ List.mem_cons_self _ _)
    have hxs : c ∉ xs := fun m => h (List.mem_cons_of_mem _ m)
    rw [List.cons_append, QString.indexOfFrom, if_neg hx, ih (i + 1) hxs, List.length_cons]
    congr 1
    omega

/-- The search answers `-1` when the character does not occur. -/
theorem QString.indexOfFrom_of_not_mem (c : Char) (l : List Char) (i : Nat) (h : c ∉ l) :
    QString.indexOfFrom c l i = -1 := by
  induction l generalizing i with
  | nil => rfl
  | cons x xs ih =>
    have hx : x ≠ c := fun e => h (e ▸ List.mem_cons_self _ _)
    have hxs : c ∉ xs := fun m => h (List.mem_cons_of_mem _ m)
    simp only [QString.indexOfFrom, if_neg hx]
    exact ih (i + 1) hxs

/-- `indexOf` on a text cut at the first occurrence of the character. -/
theorem QString.indexOf_append (pre rest : String) (c : Char) (h : c ∉ pre.data) :
    QString.indexOf (pre ++ String.singleton c ++ rest) c = (pre.data.length : Int) := by
  unfold QString.indexOf
  have hd : (pre ++ String.singleton c ++ rest).data = pre.data ++ c :: rest.data := by
    simp [String.data_append, String.singleton]
  rw [hd, QString.indexOfFrom_append_cons c _ _ 0 h]
  simp

/-- `left` at the position of the cut gives the part before the cut. -/
theorem QString.left_append (pre rest : String) (c : Char) :
    QString.left (pre ++ String.singleton c ++ rest) (pre.data.length : Int) = pre := by
  unfold QString.left QString.size
  have hd : (pre ++ String.singleton c ++ rest).data = pre.data ++ c :: rest.data := by
    simp [String.data_append, String.singleton]
  rw [hd]
  have hlt : ¬ (((pre.data.length : Nat) : Int) < 0
      ∨ ((pre.data.length : Nat) : Int) ≥ ((pre.data ++ c :: rest.data).length : Nat)) := by
    simp only [List.length_append, List.length_cons]
    omega
  rw [if_neg hlt]
  apply String.ext
  simp

/-- `mid` at the position of the cut gives the part from the cut on. -/
theorem QString.mid_append (pre rest : String) (c : Char) :
    QString.mid (pre ++ String.singleton c ++ rest) (pre.data.length : Int)
      = String.singleton c ++ rest := by
  unfold QString.mid QString.size
  have hd : (pre ++ String.singleton c ++ rest).data = pre.data ++ c :: rest.data := by
    simp [String.data_append, String.singleton]
  rw [hd]
  have h1 : ¬ (((pre.data.length : Nat) : Int) > ((pre.data ++ c :: rest.data).length : Nat)) := by
    simp only [List.length_append, List.length_cons]
    omega
  have h2 : ¬ (((pre.data.length : Nat) : Int) < 0) := by omega
  rw [if_neg h1, if_neg h2]
  apply String.ext
  simp [String.data_append, String.singleton]

/-- For a negative position `left` and `mid` both give the entire string. -/
theorem QString.left_mid_neg_one (s : String) :
    QString.left s (-1) = s ∧ QString.mid s (-1) = s := by
  unfold QString.left QString.mid QString.size
  constructor
  · rw [if_pos (Or.inl (by omega))]
  · have h1 : ¬ ((-1 : Int) > ((s.data.length : Nat) : Int)) := by omega
    rw [if_neg h1, if_pos (by omega)]

end Strings

/-! ## The renderings: properties -/

section Rendering

/-- The characters of the one-character text that separates lines. -/
theorem data_newline : ("\n" : String).data = ['\n'] := rfl

/-- The base rendering of an unselected result is the text before the first line
feed of the description. -/
theorem TestResult.outputString_false_eq (r : TestResult) :
    TestResult.outputString r false
      = some ⟨r.m_description.data.takeWhile (fun c => !decide (c = '\n'))⟩ := by
  unfold TestResult.outputString
  simp only [Bool.false_eq_true, if_false]
  exact QString.first_split _ _

/-- The two cases of the base rendering. -/
theorem TestResult.outputString_cases (r : TestResult) :
    TestResult.outputString r true = some r.m_description
    ∧ TestResult.outputString r false
        = some ⟨r.m_description.data.takeWhile (fun c => !decide (c = '\n'))⟩ :=
  ⟨by simp [TestResult.outputString], TestResult.outputString_false_eq r⟩

/-- C5: the base `outputString(true)` is the description unchanged, and
`outputString(false)` is its first line: the whole description when it has no line
feed, the part before the first line feed otherwise, and the empty string when the
description is empty. -/
theorem TestResult_outputString_first_line (r : TestResult) :
    TestResult.outputString r true = some r.m_description
    ∧ ('\n' ∉ r.m_description.data → TestResult.outputString r false = some r.m_description)
    ∧ (∀ pre rest : String, '\n' ∉ pre.data → r.m_description = pre ++ "\n" ++ rest →
        TestResult.outputString r false = some pre)
    ∧ (r.m_description = "" → TestResult.outputString r false = some "") := by
  refine ⟨?_, ?_, ?_, ?_⟩
  · simp [TestResult.outputString]
  · intro h
    rw [TestResult.outputString_false_eq, takeWhile_ne_of_not_mem _ _ h]
  · intro pre rest hpre hd
    have hdata : r.m_description.data = pre.data ++ '\n' :: rest.data := by
      rw [hd]
      simp [String.data_append, data_newline]
    rw [TestResult.outputString_false_eq, hdata, takeWhile_ne_append_cons _ _ _ hpre]
  · intro h
    rw [TestResult.outputString_false_eq, h]
    rfl

/-- Witness of C5: the description "line1\nline2\nline3" renders as "line1" when not
selected and as itself when selected. -/
theorem TestResult_outputString_first_line_witness :
    TestResult.outputString ⟨"", Result.Pass, "line1\nline2\nline3"⟩ false = some "line1"
    ∧ TestResult.outputString ⟨"", Result.Pass, "line1\nline2\nline3"⟩ true
        = some "line1\nline2\nline3" :=
  ⟨(TestResult_outputString_first_line ⟨"", Result.Pass, "line1\nline2\nline3"⟩).2.2.1
      "line1" "line2\nline3" (by decide) (by decide),
    (TestResult_outputString_first_line ⟨"", Result.Pass, "line1\nline2\nline3"⟩).1⟩

/-- C6: for a `QTestResult` of kind Pass, Fail, ExpectedFail, UnexpectedPass,
BlacklistedFail or BlacklistedPass, `outputString(selected)` is
`name + "::" + functionName`, then `" (" + dataTag + ")"` exactly when the data tag is
not empty, then a line feed and the description exactly when `selected` holds and the
description is not empty. -/
theorem QTestResult_outputString_outcome (E : ResultEnum) (r : QTestResult) (selected : Bool)
    (hk : r.m_result ∈ [E.Pass, E.Fail, E.ExpectedFail, E.UnexpectedPass,
      E.BlacklistedFail, E.BlacklistedPass]) :
    QTestResult.outputString E r selected
      = some (r.m_name ++ "::" ++ r.m_function
          ++ (if r.m_dataTag = "" then "" else " (" ++ r.m_dataTag ++ ")")
          ++ (if selected = true ∧ r.m_description ≠ "" then "\n" ++ r.m_description
              else "")) := by
  have hk2 : r.m_result = E.Pass ∨ r.m_result = E.Fail ∨ r.m_result = E.ExpectedFail
      ∨ r.m_result = E.UnexpectedPass ∨ r.m_result = E.BlacklistedFail
      ∨ r.m_result = E.BlacklistedPass := by
    simpa only [List.mem_cons, List.mem_singleton, List.not_mem_nil, or_false] using hk
  unfold QTestResult.outputString
  simp only [if_pos hk2, QString.not_isEmpty_eq_true_iff, Bool.and_eq_true,
    QString.argParen]
  by_cases hd : r.m_dataTag = "" <;> by_cases hs : selected = true
    <;> by_cases hdesc : r.m_description = ""
    <;> simp only [hd, hs, hdesc, String.append_assoc, String.append_empty, if_true,
      if_false, and_self, and_false, false_and, ne_eq, not_true_eq_false,
      not_false_eq_true, Bool.false_eq_true]

/-- Witness of C6: the two renderings of `Suite::testFoo` given in the
specification. -/
theorem QTestResult_outputString_outcome_witness :
    QTestResult.outputString Result ⟨⟨"Suite", Result.Pass, ""⟩, "testFoo", ""⟩ false
      = some "Suite::testFoo"
    ∧ QTestResult.outputString Result
        ⟨⟨"Suite", Result.Pass, "assertion failed"⟩, "testFoo", "row2"⟩ true
      = some "Suite::testFoo (row2)\nassertion failed" :=
  ⟨QTestResult_outputString_outcome Result ⟨⟨"Suite", Result.Pass, ""⟩, "testFoo", ""⟩ false
      (by decide),
    QTestResult_outputString_outcome Result
      ⟨⟨"Suite", Result.Pass, "assertion failed"⟩, "testFoo", "row2"⟩ true (by decide)⟩

/-- In a well-formed enumeration `Benchmark` is none of the six kinds of the first
group of `QTestResult::outputString`. -/
theorem ResultEnum.WellFormed.benchmark_not_outcome {E : ResultEnum} (hE : E.WellFormed) :
    ¬ (E.Benchmark = E.Pass ∨ E.Benchmark = E.Fail ∨ E.Benchmark = E.ExpectedFail
      ∨ E.Benchmark = E.UnexpectedPass ∨ E.Benchmark = E.BlacklistedFail
      ∨ E.Benchmark = E.BlacklistedPass) := by
  obtain ⟨hnd, -⟩ := hE
  have hrev := List.nodup_reverse.2 hnd
  simp only [ResultEnum.labelled, List.mem_cons, List.mem_singleton,
    List.not_mem_nil, or_false, List.nodup_cons, not_or,
    List.nodup_nil, and_true, not_false_eq_true, List.reverse_cons, List.reverse_nil,
    List.nil_append, List.cons_append, List.singleton_append] at hnd hrev
  simp only [hnd, hrev, or_self, not_false_eq_true]

/-- The rendering of a benchmark result with a non-empty description, in terms of the
position `breakPos` answered by the search for the opening parenthesis. -/
theorem QTestResult.outputString_benchmark_eq (E : ResultEnum) (hE : E.WellFormed)
    (r : QTestResult) (selected : Bool) (hk : r.m_result = E.Benchmark)
    (hne : r.m_description ≠ "") :
    QTestResult.outputString E r selected
      = some (QTestResult.label r ++ ": "
          ++ QString.left r.m_description (QString.indexOf r.m_description '(')
          ++ (if selected = true then
                "\n" ++ QString.mid r.m_description (QString.indexOf r.m_description '(')
              else "")) := by
  unfold QTestResult.outputString QTestResult.label
  have h1 := hE.benchmark_not_outcome
  rw [← hk] at h1
  simp only [if_neg h1, if_pos hk, QString.not_isEmpty_eq_true_iff, QString.argParen]
  by_cases hd : r.m_dataTag = "" <;> by_cases hs : selected = true
    <;> simp only [hd, hs, hne, String.append_assoc, String.append_empty, if_true,
      if_false, ne_eq, not_true_eq_false, not_false_eq_true, Bool.false_eq_true]

/-- C7: for a `QTestResult` of kind Benchmark whose description is `pre` followed by an
opening parenthesis and `rest`, with no opening parenthesis in `pre`,
`outputString(false)` is `label + ": " + pre` and `outputString(true)` is
`label + ": " + pre + "\n" + "(" + rest`. -/
theorem QTestResult_benchmark_split_at_parenthesis (E : ResultEnum) (hE : E.WellFormed)
    (r : QTestResult) (hk : r.m_result = E.Benchmark) (pre rest : String)
    (hpre : '(' ∉ pre.data) (hd : r.m_description = pre ++ "(" ++ rest) :
    QTestResult.outputString E r false = some (QTestResult.label r ++ ": " ++ pre)
    ∧ QTestResult.outputString E r true
        = some (QTestResult.label r ++ ": " ++ pre ++ "\n" ++ ("(" ++ rest)) := by
  have hd2 : r.m_description = pre ++ String.singleton '(' ++ rest := hd
  have hne : r.m_description ≠ "" := by
    intro h
    have h2 := congrArg String.data h
    rw [hd2] at h2
    simp [String.data_append, String.singleton] at h2
  have hidx := QString.indexOf_append pre rest '(' hpre
  have hleft := QString.left_append pre rest '('
  have hmid := QString.mid_append pre rest '('
  constructor
  · rw [QTestResult.outputString_benchmark_eq E hE r false hk hne, hd2, hidx, hleft]
    simp only [Bool.false_eq_true, if_false, String.append_empty]
  · rw [QTestResult.outputString_benchmark_eq E hE r true hk hne, hd2, hidx, hleft, hmid]
    simp only [if_true, String.append_assoc]
    rfl

/-- Witness of C7: the benchmark description of the specification, not selected. -/
theorem QTestResult_benchmark_split_at_parenthesis_witness :
    QTestResult.outputString Result
        ⟨⟨"Suite", Result.Benchmark, "0.5 msecs per iteration (total: 50, iterations: 100)"⟩,
          "testFoo", ""⟩ false
      = some "Suite::testFoo: 0.5 msecs per iteration " :=
  (QTestResult_benchmark_split_at_parenthesis Result (by decide)
      ⟨⟨"Suite", Result.Benchmark, "0.5 msecs per iteration (total: 50, iterations: 100)"⟩,
        "testFoo", ""⟩ rfl "0.5 msecs per iteration " "total: 50, iterations: 100)"
      (by decide) (by decide)).1.trans (by decide)

/-- C8, as stated, fails: on a benchmark result whose non-empty description "fast"
has no opening parenthesis, the unselected rendering is not `label + ": "` and the
selected rendering is not `label + ": " + "\n" + description`. -/
theorem QTestResult_benchmark_index_zero_counterexample :
    benchmarkWithoutParenthesis.m_result = Result.Benchmark
    ∧ benchmarkWithoutParenthesis.m_description ≠ ""
    ∧ '(' ∉ benchmarkWithoutParenthesis.m_description.data
    ∧ QTestResult.outputString Result benchmarkWithoutParenthesis false
        = some "Suite::testFoo: fast"
    ∧ QTestResult.outputString Result benchmarkWithoutParenthesis false
        ≠ some (QTestResult.label benchmarkWithoutParenthesis ++ ": ")
    ∧ QTestResult.outputString Result benchmarkWithoutParenthesis true
        = some "Suite::testFoo: fast\nfast"
    ∧ QTestResult.outputString Result benchmarkWithoutParenthesis true
        ≠ some (QTestResult.label benchmarkWithoutParenthesis ++ ": " ++ "\n"
            ++ benchmarkWithoutParenthesis.m_description) := by
  decide

/-- C8, amended: for a `QTestResult` of kind Benchmark whose description is not empty
and has no opening parenthesis, the search answers `-1`, for which `left` and `mid`
both give the whole description: `outputString(false)` is
`label + ": " + description` and `outputString(true)` is
`label + ": " + description + "\n" + description`. -/
theorem QTestResult_benchmark_without_parenthesis (E : ResultEnum)
    (hE : E.WellFormed) (r : QTestResult) (hk : r.m_result = E.Benchmark)
    (hne : r.m_description ≠ "") (hno : '(' ∉ r.m_description.data) :
    QString.indexOf r.m_description '(' = -1
    ∧ QTestResult.outputString E r false
        = some (QTestResult.label r ++ ": " ++ r.m_description)
    ∧ QTestResult.outputString E r true
        = some (QTestResult.label r ++ ": " ++ r.m_description ++ "\n"
            ++ r.m_description) := by
  have hidx : QString.indexOf r.m_description '(' = -1 :=
    QString.indexOfFrom_of_not_mem _ _ 0 hno
  obtain ⟨hleft, hmid⟩ := QString.left_mid_neg_one r.m_description
  refine ⟨hidx, ?_, ?_⟩
  · rw [QTestResult.outputString_benchmark_eq E hE r false hk hne, hidx, hleft]
    simp only [Bool.false_eq_true, if_false, String.append_empty]
  · rw [QTestResult.outputString_benchmark_eq E hE r true hk hne, hidx, hleft, hmid]
    simp only [if_true, String.append_assoc]

/-- Witness of the amended C8 on the benchmark result with description "fast". -/
theorem QTestResult_benchmark_without_parenthesis_witness :
    QTestResult.outputString Result benchmarkWithoutParenthesis false
      = some (QTestResult.label benchmarkWithoutParenthesis ++ ": "
          ++ benchmarkWithoutParenthesis.m_description) :=
  (QTestResult_benchmark_without_parenthesis Result (by decide)
    benchmarkWithoutParenthesis rfl (by decide) (by decide)).2.1

/-- C9: for a `GTestResult` of kind Pass or Fail, `outputString(selected)` is the name
of the test set, followed by a line feed and the description exactly when `selected`
holds and the description is not empty; so `outputString(false)` is the name of the
test set, whatever the description. -/
theorem GTestResult_outputString_pass_fail (E : ResultEnum) (r : GTestResult)
    (hk : r.m_result = E.Pass ∨ r.m_result = E.Fail) :
    (∀ selected : Bool, GTestResult.outputString E r selected
      = some (r.m_testSetName
          ++ (if selected = true ∧ r.m_description ≠ "" then "\n" ++ r.m_description
              else "")))
    ∧ GTestResult.outputString E r false = some r.m_testSetName := by
  have key : ∀ selected : Bool, GTestResult.outputString E r selected
      = some (r.m_testSetName
          ++ (if selected = true ∧ r.m_description ≠ "" then "\n" ++ r.m_description
              else "")) := by
    intro selected
    unfold GTestResult.outputString
    simp only [if_pos hk, QString.not_isEmpty_eq_true_iff, Bool.and_eq_true]
    by_cases hs : selected = true <;> by_cases hdesc : r.m_description = ""
      <;> simp only [hs, hdesc, String.append_assoc, String.append_empty, if_true,
        if_false, and_self, and_false, false_and, ne_eq, not_true_eq_false,
        not_false_eq_true, Bool.false_eq_true]
  refine ⟨key, ?_⟩
  rw [key false]
  simp only [Bool.false_eq_true, false_and, if_false, String.append_empty]

/-- Witness of C9: the failed test set of the specification, not selected. -/
theorem GTestResult_outputString_pass_fail_witness :
    GTestResult.outputString Result
        ⟨⟨"", Result.Fail, "expected true, got false"⟩, "SuiteA.CaseB"⟩ false
      = some "SuiteA.CaseB" :=
  (GTestResult_outputString_pass_fail Result
    ⟨⟨"", Result.Fail, "expected true, got false"⟩, "SuiteA.CaseB"⟩ (Or.inr rfl)).2

/-- C10: a `QTestResult` whose kind is none of Pass, Fail, ExpectedFail,
UnexpectedPass, BlacklistedFail, BlacklistedPass, Benchmark, and a `GTestResult` whose
kind is neither Pass nor Fail, render, for both values of `selected`, as the base
`TestResult::outputString` does on any result with the same description, whatever the
name, function name, data tag and test set name are: the description if selected, the
text before its first line feed otherwise. -/
theorem outputString_fallback_base (E : ResultEnum) :
    (∀ r : QTestResult,
      r.m_result ∉ [E.Pass, E.Fail, E.ExpectedFail, E.UnexpectedPass, E.BlacklistedFail,
        E.BlacklistedPass, E.Benchmark] →
      (∀ (selected : Bool) (base : TestResult), base.m_description = r.m_description →
        QTestResult.outputString E r selected = TestResult.outputString base selected)
      ∧ QTestResult.outputString E r true = some r.m_description
      ∧ QTestResult.outputString E r false
          = some ⟨r.m_description.data.takeWhile (fun c => !decide (c = '\n'))⟩)
    ∧ (∀ r : GTestResult, r.m_result ∉ [E.Pass, E.Fail] →
      (∀ (selected : Bool) (base : TestResult), base.m_description = r.m_description →
        GTestResult.outputString E r selected = TestResult.outputString base selected)
      ∧ GTestResult.outputString E r true = some r.m_description
      ∧ GTestResult.outputString E r false
          = some ⟨r.m_description.data.takeWhile (fun c => !decide (c = '\n'))⟩) := by
  constructor
  · intro r hk
    simp only [List.mem_cons, List.mem_singleton, List.not_mem_nil, or_false, not_or] at hk
    obtain ⟨h1, h2, h3, h4, h5, h6, h7⟩ := hk
    have key : ∀ (selected : Bool) (base : TestResult),
        base.m_description = r.m_description →
        QTestResult.outputString E r selected = TestResult.outputString base selected := by
      intro selected base hbase
      unfold QTestResult.outputString TestResult.outputString
      simp only [h1, h2, h3, h4, h5, h6, h7, or_self, if_false, hbase]
      cases selected <;> rfl
    refine ⟨key, ?_, ?_⟩
    · rw [key true r.toTestResult rfl]
      exact (TestResult.outputString_cases r.toTestResult).1
    · rw [key false r.toTestResult rfl]
      exact (TestResult.outputString_cases r.toTestResult).2
  · intro r hk
    simp only [List.mem_cons, List.mem_singleton, List.not_mem_nil, or_false, not_or] at hk
    obtain ⟨h1, h2⟩ := hk
    have key : ∀ (selected : Bool) (base : TestResult),
        base.m_description = r.m_description →
        GTestResult.outputString E r selected = TestResult.outputString base selected := by
      intro selected base hbase
      unfold GTestResult.outputString TestResult.outputString
      simp only [h1, h2, or_self, if_false, hbase]
      cases selected <;> rfl
    refine ⟨key, ?_, ?_⟩
    · rw [key true r.toTestResult rfl]
      exact (TestResult.outputString_cases r.toTestResult).1
    · rw [key false r.toTestResult rfl]
      exact (TestResult.outputString_cases r.toTestResult).2

/-- Witness of C10: a debug message of the Qt Test variant and a skipped test of the
Google Test variant, not selected, render as the base result with the same
description does. -/
theorem outputString_fallback_base_witness :
    QTestResult.outputString Result
        ⟨⟨"Suite", Result.MessageDebug, "first\nsecond"⟩, "testFoo", "row2"⟩ false
      = TestResult.outputString ⟨"", Result.Invalid, "first\nsecond"⟩ false
    ∧ GTestResult.outputString Result
        ⟨⟨"Suite", Result.Skip, "first\nsecond"⟩, "SuiteA.CaseB"⟩ false
      = TestResult.outputString ⟨"", Result.Invalid, "first\nsecond"⟩ false :=
  ⟨((outputString_fallback_base Result).1
      ⟨⟨"Suite", Result.MessageDebug, "first\nsecond"⟩, "testFoo", "row2"⟩ (by decide)).1
      false ⟨"", Result.Invalid, "first\nsecond"⟩ rfl,
    ((outputString_fallback_base Result).2
      ⟨⟨"Suite", Result.Skip, "first\nsecond"⟩, "SuiteA.CaseB"⟩ (by decide)).1
      false ⟨"", Result.Invalid, "first\nsecond"⟩ rfl⟩

end Rendering

/-! ## Colours and further properties of the codec -/

section CodecFurther

open TestResult

/-- In a well-formed enumeration the eleven labelled kinds receive their labels, in
the order of `labelled`, and `Invalid` receives "UNKNOWN". -/
theorem ResultEnum.WellFormed.resultToString_labelled {E : ResultEnum}
    (hE : E.WellFormed) :
    E.labelled.map (resultToString E)
        = ["PASS", "FAIL", "XFAIL", "XPASS", "SKIP", "BENCH", "DEBUG", "WARN", "FATAL",
            "BPASS", "BFAIL"]
    ∧ resultToString E E.Invalid = "UNKNOWN" := by
  obtain ⟨hnd, hni⟩ := hE
  have hrev := List.nodup_reverse.2 hnd
  simp only [ResultEnum.labelled, ResultEnum.isInternal, List.mem_cons, List.mem_singleton,
    List.not_mem_nil, or_false, forall_eq_or_imp, forall_eq, List.nodup_cons, not_or,
    List.nodup_nil, and_true, not_false_eq_true, List.reverse_cons, List.reverse_nil,
    List.nil_append, List.cons_append, List.singleton_append] at hnd hni hrev
  constructor
  · simp only [ResultEnum.labelled, List.map_cons, List.map_nil, resultToString, hni, hrev,
      if_false, if_true, and_self]
  · simp only [resultToString, hni, hnd, if_false]

/-- A conditional whose two branches lie in a list lies in that list. -/
theorem ite_mem_of_mem {α : Type} {c : Prop} [Decidable c] {a b : α} {l : List α}
    (ha : a ∈ l) (hb : b ∈ l) : (if c then a else b) ∈ l := by
  split
  · exact ha
  · exact hb

/-- The label of a kind outside the internal range is one of twelve non-empty
texts. -/
theorem resultToString_mem_of_not_internal (E : ResultEnum) (k : Int)
    (hk : ¬ E.isInternal k) :
    resultToString E k ∈ ["PASS", "FAIL", "XFAIL", "XPASS", "SKIP", "BENCH", "DEBUG",
      "WARN", "FATAL", "BPASS", "BFAIL", "UNKNOWN"] := by
  unfold ResultEnum.isInternal at hk
  unfold resultToString
  rw [if_neg hk]
  repeat' (first | apply ite_mem_of_mem | decide)

/-- The kind answered for a token is one of the ten kinds of the token table; the
kind answered for any other string is `Invalid`. -/
theorem resultFromString_cases (E : ResultEnum) (t : String) :
    (t ∈ resultTokens
      ∧ resultFromString E t ∈ [E.Pass, E.Fail, E.ExpectedFail, E.UnexpectedPass, E.Skip,
          E.MessageDebug, E.MessageWarn, E.MessageFatal, E.BlacklistedPass,
          E.BlacklistedFail])
    ∨ (t ∉ resultTokens ∧ resultFromString E t = E.Invalid) := by
  unfold resultFromString resultTokens
  split_ifs with h1 h2 h3 h4 h5 h6 h7 h8 h9 h10
  · left; simp [h1]
  · left; simp [h2]
  · left; simp [h3]
  · left; simp [h4]
  · left; simp [h5]
  · left; simp [h6]
  · left
    rcases h7 with h7 | h7 <;> simp [h7]
  · left; simp [h8]
  · left; simp [h9]
  · left; simp [h10]
  · right
    simp only [not_or] at h7
    simp [h1, h2, h3, h4, h5, h6, h7.1, h7.2, h8, h9, h10]

/-- In a well-formed enumeration a kind of the token table is not `Benchmark`, is not
internal, and its label is one of the ten labels other than "BENCH". -/
theorem ResultEnum.WellFormed.token_kind {E : ResultEnum} (hE : E.WellFormed) (k : Int)
    (hk : k ∈ [E.Pass, E.Fail, E.ExpectedFail, E.UnexpectedPass, E.Skip, E.MessageDebug,
      E.MessageWarn, E.MessageFatal, E.BlacklistedPass, E.BlacklistedFail]) :
    k ≠ E.Benchmark ∧ ¬ E.isInternal k
    ∧ resultToString E k ∈ ["PASS", "FAIL", "XFAIL", "XPASS", "SKIP", "DEBUG", "WARN",
        "FATAL", "BPASS", "BFAIL"] := by
  obtain ⟨hnd, hni⟩ := hE
  have hrev := List.nodup_reverse.2 hnd
  simp only [ResultEnum.labelled, ResultEnum.isInternal, List.mem_cons, List.mem_singleton,
    List.not_mem_nil, or_false, forall_eq_or_imp, forall_eq, List.nodup_cons, not_or,
    List.nodup_nil, and_true, not_false_eq_true, List.reverse_cons, List.reverse_nil,
    List.nil_append, List.cons_append, List.singleton_append] at hnd hni hrev
  simp only [List.mem_cons, List.mem_singleton, List.not_mem_nil, or_false] at hk
  rcases hk with h | h | h | h | h | h | h | h | h | h <;> subst h <;>
    refine ⟨?_, ?_, ?_⟩ <;>
    first
      | (simp only [ne_eq, hnd, hrev, not_false_eq_true])
      | (simp only [ResultEnum.isInternal, hni, not_false_eq_true])
      | (simp only [resultToString, hni, hrev, if_false, if_true, and_self]; decide)

/-- C11: with the theme a function from colour keys to colours, `colorForType` gives
the transparent colour on the internal range whatever the theme is, the theme's pass,
fail, xfail, xpass, skip, debug, warn and fatal colours on Pass, Fail, ExpectedFail,
UnexpectedPass, Skip, MessageDebug, MessageWarn and MessageFatal, and the theme's
standard-output colour on Benchmark, BlacklistedPass, BlacklistedFail, Invalid and
every other kind. -/
theorem colorForType_table (E : ResultEnum) (hE : E.WellFormed)
    (theme : ThemeColor → QColor) :
    (∀ t : Int, E.isInternal t → colorForType E theme t = QColor.transparent)
    ∧ (colorForType E theme E.Pass = theme ThemeColor.OutputPanes_TestPassTextColor
      ∧ colorForType E theme E.Fail = theme ThemeColor.OutputPanes_TestFailTextColor
      ∧ colorForType E theme E.ExpectedFail
          = theme ThemeColor.OutputPanes_TestXFailTextColor
      ∧ colorForType E theme E.UnexpectedPass
          = theme ThemeColor.OutputPanes_TestXPassTextColor
      ∧ colorForType E theme E.Skip = theme ThemeColor.OutputPanes_TestSkipTextColor
      ∧ colorForType E theme E.MessageDebug
          = theme ThemeColor.OutputPanes_TestDebugTextColor
      ∧ colorForType E theme E.MessageWarn
          = theme ThemeColor.OutputPanes_TestWarnTextColor
      ∧ colorForType E theme E.MessageFatal
          = theme ThemeColor.OutputPanes_TestFatalTextColor)
    ∧ (colorForType E theme E.Benchmark = theme ThemeColor.OutputPanes_StdOutTextColor
      ∧ colorForType E theme E.BlacklistedPass
          = theme ThemeColor.OutputPanes_StdOutTextColor
      ∧ colorForType E theme E.BlacklistedFail
          = theme ThemeColor.OutputPanes_StdOutTextColor
      ∧ colorForType E theme E.Invalid = theme ThemeColor.OutputPanes_StdOutTextColor)
    ∧ (∀ t : Int, ¬ E.isInternal t →
        t ∉ [E.Pass, E.Fail, E.ExpectedFail, E.UnexpectedPass, E.Skip, E.MessageDebug,
          E.MessageWarn, E.MessageFatal] →
        colorForType E theme t = theme ThemeColor.OutputPanes_StdOutTextColor) := by
  obtain ⟨hnd, hni⟩ := hE
  have hrev := List.nodup_reverse.2 hnd
  simp only [ResultEnum.labelled, ResultEnum.isInternal, List.mem_cons, List.mem_singleton,
    List.not_mem_nil, or_false, forall_eq_or_imp, forall_eq, List.nodup_cons, not_or,
    List.nodup_nil, and_true, not_false_eq_true, List.reverse_cons, List.reverse_nil,
    List.nil_append, List.cons_append, List.singleton_append] at hnd hni hrev
  refine ⟨?_, ?_, ?_, ?_⟩
  · intro t ht
    unfold colorForType
    exact if_pos ht
  · simp only [colorForType, hni, hnd, hrev, if_false, if_true, and_self]
  · simp only [colorForType, hni, hnd, hrev, if_false, if_true, and_self, or_self,
      or_true, true_or, ite_self]
  · intro t hint hthemed
    simp only [List.mem_cons, List.mem_singleton, List.not_mem_nil, or_false, not_or]
      at hthemed
    unfold ResultEnum.isInternal at hint
    simp only [colorForType, hint, hthemed, if_false, ite_self]

/-- Witness of C11 on the modelled enumeration and a sample theme. -/
theorem colorForType_table_witness :
    colorForType Result sampleTheme 12 = QColor.transparent
    ∧ colorForType Result sampleTheme Result.Benchmark
        = sampleTheme ThemeColor.OutputPanes_StdOutTextColor :=
  ⟨(colorForType_table Result (by decide) sampleTheme).1 12 (by decide),
    (colorForType_table Result (by decide) sampleTheme).2.2.1.1⟩

/-- C17: `toResultType` is idempotent through the numeric value of its result. -/
theorem toResultType_idempotent (E : ResultEnum) (rt : Int) :
    toResultType E (toResultType E rt) = toResultType E rt := by
  by_cases h : E.inRange rt
  · rw [toResultType_of_inRange E rt h, toResultType_of_inRange E rt h]
  · rw [toResultType_of_not_inRange E rt h]
    by_cases hi : E.inRange E.Invalid
    · exact toResultType_of_inRange E E.Invalid hi
    · exact toResultType_of_not_inRange E E.Invalid hi

/-- C18: `resultToString` gives the empty string exactly on the internal range, and
the eleven labelled kinds receive eleven pairwise distinct labels, none of which is
"UNKNOWN". -/
theorem resultToString_empty_iff_internal (E : ResultEnum) :
    (∀ k : Int, resultToString E k = "" ↔ E.isInternal k)
    ∧ (E.WellFormed →
        (E.labelled.map (resultToString E)).length = 11
        ∧ (E.labelled.map (resultToString E)).Nodup
        ∧ "UNKNOWN" ∉ E.labelled.map (resultToString E)) := by
  constructor
  · intro k
    constructor
    · intro h
      by_contra hk
      have hmem := resultToString_mem_of_not_internal E k hk
      rw [h] at hmem
      exact absurd hmem (by decide)
    · intro h
      unfold resultToString
      exact if_pos h
  · intro hE
    rw [hE.resultToString_labelled.1]
    decide

/-- Witness of C18 on the modelled enumeration. -/
theorem resultToString_empty_iff_internal_witness :
    Result.WellFormed ∧ (Result.labelled.map (resultToString Result)).Nodup :=
  ⟨by decide, ((resultToString_empty_iff_internal Result).2 (by decide)).2.1⟩

/-- C19: no string is turned into `Benchmark` or into an internal kind by
`resultFromString`; hence the label of the kind answered for a string is never empty
and never "BENCH", and it is "UNKNOWN" exactly when the string is not one of the
eleven tokens. -/
theorem resultFromString_never_benchmark_nor_internal (E : ResultEnum)
    (hE : E.WellFormed) (t : String) :
    resultFromString E t ≠ E.Benchmark
    ∧ ¬ E.isInternal (resultFromString E t)
    ∧ resultToString E (resultFromString E t) ≠ ""
    ∧ resultToString E (resultFromString E t) ≠ "BENCH"
    ∧ (resultToString E (resultFromString E t) = "UNKNOWN" ↔ t ∉ resultTokens) := by
  rcases resultFromString_cases E t with ⟨ht, hk⟩ | ⟨ht, hk⟩
  · obtain ⟨h1, h2, h3⟩ := hE.token_kind _ hk
    refine ⟨h1, h2, ?_, ?_, ?_⟩
    · intro h
      rw [h] at h3
      exact absurd h3 (by decide)
    · intro h
      rw [h] at h3
      exact absurd h3 (by decide)
    · constructor
      · intro h
        rw [h] at h3
        exact absurd h3 (by decide)
      · intro h
        exact absurd ht h
  · rw [hk]
    have hlab : E.Invalid ∉ E.labelled := (List.nodup_cons.1 hE.1).1
    have hbench : E.Benchmark ∈ E.labelled := by simp [ResultEnum.labelled]
    have hint : ¬ E.isInternal E.Invalid := hE.2 E.Invalid (List.mem_cons_self _ _)
    refine ⟨?_, hint, ?_, ?_, ?_⟩
    · intro h
      exact hlab (h ▸ hbench)
    · rw [hE.resultToString_labelled.2]
      decide
    · rw [hE.resultToString_labelled.2]
      decide
    · rw [hE.resultToString_labelled.2]
      exact ⟨fun _ => ht, fun _ => rfl⟩

/-- Witness of C19 on the modelled enumeration: the string "bench" is not a token; it
is not turned into `Benchmark` and its label is "UNKNOWN". -/
theorem resultFromString_never_benchmark_nor_internal_witness :
    Result.WellFormed
    ∧ resultFromString Result "bench" ≠ Result.Benchmark
    ∧ resultToString Result (resultFromString Result "bench") = "UNKNOWN" :=
  ⟨by decide,
    (resultFromString_never_benchmark_nor_internal Result (by decide) "bench").1,
    (resultFromString_never_benchmark_nor_internal Result (by decide) "bench").2.2.2.2.mpr
      (by decide)⟩

end CodecFurther

/-! ## Further properties of the renderings -/

section RenderingFurther

/-- `QTestResult::outputString` branch by branch, with the label factored out. -/
theorem QTestResult.outputString_by_kind (E : ResultEnum) (r : QTestResult) (selected : Bool) :
    QTestResult.outputString E r selected
      = if r.m_result = E.Pass ∨ r.m_result = E.Fail ∨ r.m_result = E.ExpectedFail
            ∨ r.m_result = E.UnexpectedPass ∨ r.m_result = E.BlacklistedFail
            ∨ r.m_result = E.BlacklistedPass then
          some (QTestResult.label r
            ++ (if selected = true ∧ r.m_description ≠ "" then "\n" ++ r.m_description
                else ""))
        else if r.m_result = E.Benchmark then
          some (QTestResult.label r
            ++ (if r.m_description = "" then ""
                else ": " ++ QString.left r.m_description (QString.indexOf r.m_description '(')
                  ++ (if selected = true then
                        "\n" ++ QString.mid r.m_description
                          (QString.indexOf r.m_description '(')
                      else "")))
        else TestResult.outputString r.toTestResult selected := by
  unfold QTestResult.outputString QTestResult.label TestResult.outputString
  simp only [QString.not_isEmpty_eq_true_iff, Bool.and_eq_true, QString.argParen]
  by_cases hg : r.m_result = E.Pass ∨ r.m_result = E.Fail ∨ r.m_result = E.ExpectedFail
      ∨ r.m_result = E.UnexpectedPass ∨ r.m_result = E.BlacklistedFail
      ∨ r.m_result = E.BlacklistedPass
  · rw [if_pos hg, if_pos hg]
    by_cases hd : r.m_dataTag = "" <;> by_cases hs : selected = true
      <;> by_cases hdesc : r.m_description = ""
      <;> simp only [hd, hs, hdesc, String.append_assoc, String.append_empty, if_true,
        if_false, and_self, and_false, false_and, ne_eq, not_true_eq_false,
        not_false_eq_true, Bool.false_eq_true]
  · rw [if_neg hg, if_neg hg]
    by_cases hb : r.m_result = E.Benchmark
    · rw [if_pos hb, if_pos hb]
      by_cases hd : r.m_dataTag = "" <;> by_cases hs : selected = true
        <;> by_cases hdesc : r.m_description = ""
        <;> simp only [hd, hs, hdesc, String.append_assoc, String.append_empty, if_true,
          if_false, ne_eq, not_true_eq_false, not_false_eq_true, Bool.false_eq_true]
    · rw [if_neg hb, if_neg hb]
      cases selected <;> rfl

/-- `GTestResult::outputString` branch by branch. -/
theorem GTestResult.outputString_by_group (E : ResultEnum) (r : GTestResult) (selected : Bool) :
    GTestResult.outputString E r selected
      = if r.m_result = E.Pass ∨ r.m_result = E.Fail then
          some (r.m_testSetName
            ++ (if selected = true ∧ r.m_description ≠ "" then "\n" ++ r.m_description
                else ""))
        else TestResult.outputString r.toTestResult selected := by
  unfold GTestResult.outputString TestResult.outputString
  simp only [QString.not_isEmpty_eq_true_iff, Bool.and_eq_true]
  by_cases hg : r.m_result = E.Pass ∨ r.m_result = E.Fail
  · rw [if_pos hg, if_pos hg]
    by_cases hs : selected = true <;> by_cases hdesc : r.m_description = ""
      <;> simp only [hs, hdesc, String.append_assoc, String.append_empty, if_true,
        if_false, and_self, and_false, false_and, ne_eq, not_true_eq_false,
        not_false_eq_true, Bool.false_eq_true]
  · rw [if_neg hg, if_neg hg]
    cases selected <;> rfl

/-- The base rendering always answers a text. -/
theorem TestResult.outputString_isSome (r : TestResult) (selected : Bool) :
    (TestResult.outputString r selected).isSome = true := by
  cases selected
  · rw [(TestResult.outputString_cases r).2]
    rfl
  · rw [(TestResult.outputString_cases r).1]
    rfl

/-- The position answered by the search is `-1` or lies between the start position
and the end of the text. -/
theorem QString.indexOfFrom_bounds (c : Char) (l : List Char) (i : Nat) :
    QString.indexOfFrom c l i = -1
    ∨ ((i : Int) ≤ QString.indexOfFrom c l i
        ∧ QString.indexOfFrom c l i < ((i + l.length : Nat) : Int)) := by
  induction l generalizing i with
  | nil => left; rfl
  | cons x xs ih =>
    unfold QString.indexOfFrom
    by_cases hx : x = c
    · right
      rw [if_pos hx, List.length_cons]
      constructor <;> omega
    · rw [if_neg hx, List.length_cons]
      rcases ih (i + 1) with h | ⟨h1, h2⟩
      · left; exact h
      · right
        constructor <;> omega

/-- C12: the three renderings answer a text for every kind, every description, every
name, function name, data tag and test set name, and both values of `selected`;
splitting a description at the line feeds never gives the empty list, so its first
element exists; and the position handed to `left` and `mid` in the Benchmark branch is
`-1` or a position inside the description. -/
theorem outputString_total (E : ResultEnum) (selected : Bool) :
    (∀ r : TestResult, (TestResult.outputString r selected).isSome = true)
    ∧ (∀ r : QTestResult, (QTestResult.outputString E r selected).isSome = true)
    ∧ (∀ r : GTestResult, (GTestResult.outputString E r selected).isSome = true)
    ∧ (∀ d : String, QString.split d '\n' ≠ []
        ∧ (QStringList.first (QString.split d '\n')).isSome = true)
    ∧ (∀ d : String, QString.indexOf d '(' = -1
        ∨ (0 ≤ QString.indexOf d '(' ∧ QString.indexOf d '(' < QString.size d)) := by
  refine ⟨fun r => TestResult.outputString_isSome r selected, ?_, ?_, ?_, ?_⟩
  · intro r
    rw [QTestResult.outputString_by_kind]
    split
    · rfl
    · split
      · rfl
      · exact TestResult.outputString_isSome _ _
  · intro r
    rw [GTestResult.outputString_by_group]
    split
    · rfl
    · exact TestResult.outputString_isSome _ _
  · intro d
    constructor
    · exact QString.splitFrom_ne_nil _ _ _
    · rw [QString.first_split]
      rfl
  · intro d
    have h := QString.indexOfFrom_bounds '(' d.data 0
    unfold QString.indexOf QString.size
    rcases h with h | ⟨h1, h2⟩
    · left; exact h
    · right
      constructor
      · simpa using h1
      · simpa using h2

/-- C13: a `FaultyTestResult` constructed from a kind and a description has that kind,
that description and the empty name, and is rendered by the base rule: the description
when selected, the text before its first line feed otherwise. -/
theorem FaultyTestResult_new_fields (initial k : Int) (d : String) :
    (FaultyTestResult.new initial k d).m_result = k
    ∧ (FaultyTestResult.new initial k d).m_description = d
    ∧ (FaultyTestResult.new initial k d).m_name = ""
    ∧ TestResult.outputString (FaultyTestResult.new initial k d) true = some d
    ∧ TestResult.outputString (FaultyTestResult.new initial k d) false
        = some ⟨d.data.takeWhile (fun c => !decide (c = '\n'))⟩ :=
  ⟨rfl, rfl, rfl, (TestResult.outputString_cases _).1, (TestResult.outputString_cases _).2⟩

/-- C14: for a `QTestResult` of kind Pass, Fail, ExpectedFail, UnexpectedPass,
BlacklistedFail, BlacklistedPass or Benchmark whose description is empty,
`outputString(true)` and `outputString(false)` are equal and are exactly the label,
and with an empty data tag the label is exactly `name + "::" + functionName`. -/
theorem QTestResult_outputString_empty_description (E : ResultEnum) (r : QTestResult)
    (hk : r.m_result ∈ [E.Pass, E.Fail, E.ExpectedFail, E.UnexpectedPass,
      E.BlacklistedFail, E.BlacklistedPass, E.Benchmark])
    (hd : r.m_description = "") :
    QTestResult.outputString E r true = QTestResult.outputString E r false
    ∧ QTestResult.outputString E r false = some (QTestResult.label r)
    ∧ (r.m_dataTag = "" → QTestResult.label r = r.m_name ++ "::" ++ r.m_function) := by
  have key : ∀ selected : Bool,
      QTestResult.outputString E r selected = some (QTestResult.label r) := by
    intro selected
    rw [QTestResult.outputString_by_kind]
    by_cases hg : r.m_result = E.Pass ∨ r.m_result = E.Fail ∨ r.m_result = E.ExpectedFail
        ∨ r.m_result = E.UnexpectedPass ∨ r.m_result = E.BlacklistedFail
        ∨ r.m_result = E.BlacklistedPass
    · rw [if_pos hg]
      simp only [hd, ne_eq, not_true_eq_false, and_false, if_false, String.append_empty]
    · have hb : r.m_result = E.Benchmark := by
        simp only [List.mem_cons, List.mem_singleton, List.not_mem_nil, or_false] at hk
        tauto
      rw [if_neg hg, if_pos hb]
      simp only [hd, if_true, String.append_empty]
  refine ⟨by rw [key true, key false], key false, ?_⟩
  intro htag
  unfold QTestResult.label
  simp only [htag, if_true, String.append_empty]

/-- Witness of C14: a benchmark result without description and without data tag
renders as "Suite::testFoo". -/
theorem QTestResult_outputString_empty_description_witness :
    QTestResult.outputString Result ⟨⟨"Suite", Result.Benchmark, ""⟩, "testFoo", ""⟩ false
      = some "Suite::testFoo" :=
  (QTestResult_outputString_empty_description Result
    ⟨⟨"Suite", Result.Benchmark, ""⟩, "testFoo", ""⟩ (by decide) rfl).2.1.trans (by decide)

/-- The description is the text before its first line feed followed by the rest. -/
theorem takeWhile_append_rest (d : String) :
    d = (⟨d.data.takeWhile (fun c => !decide (c = '\n'))⟩ : String)
        ++ ⟨d.data.dropWhile (fun c => !decide (c = '\n'))⟩ := by
  apply String.ext
  simp [String.data_append]

/-- The unselected base rendering starts the selected one. -/
theorem TestResult.outputString_false_start (r : TestResult) :
    ∃ a rest : String, TestResult.outputString r false = some a
      ∧ TestResult.outputString r true = some (a ++ rest) := by
  refine ⟨⟨r.m_description.data.takeWhile (fun c => !decide (c = '\n'))⟩,
    ⟨r.m_description.data.dropWhile (fun c => !decide (c = '\n'))⟩,
    (TestResult.outputString_cases r).2, ?_⟩
  rw [(TestResult.outputString_cases r).1, ← takeWhile_append_rest]

/-- C15: for each of the three variants, every kind and every content of the fields,
the text rendered when not selected is the beginning of the text rendered when
selected. -/
theorem outputString_unselected_starts_selected (E : ResultEnum) :
    (∀ r : TestResult, ∃ a rest : String, TestResult.outputString r false = some a
      ∧ TestResult.outputString r true = some (a ++ rest))
    ∧ (∀ r : QTestResult, ∃ a rest : String, QTestResult.outputString E r false = some a
      ∧ QTestResult.outputString E r true = some (a ++ rest))
    ∧ (∀ r : GTestResult, ∃ a rest : String, GTestResult.outputString E r false = some a
      ∧ GTestResult.outputString E r true = some (a ++ rest)) := by
  refine ⟨TestResult.outputString_false_start, ?_, ?_⟩
  · intro r
    rw [QTestResult.outputString_by_kind, QTestResult.outputString_by_kind]
    by_cases hg : r.m_result = E.Pass ∨ r.m_result = E.Fail ∨ r.m_result = E.ExpectedFail
        ∨ r.m_result = E.UnexpectedPass ∨ r.m_result = E.BlacklistedFail
        ∨ r.m_result = E.BlacklistedPass
    · rw [if_pos hg, if_pos hg]
      refine ⟨QTestResult.label r,
        if r.m_description ≠ "" then "\n" ++ r.m_description else "", ?_, ?_⟩
      · simp only [Bool.false_eq_true, false_and, if_false, String.append_empty]
      · simp only [true_and]
    · rw [if_neg hg, if_neg hg]
      by_cases hb : r.m_result = E.Benchmark
      · rw [if_pos hb, if_pos hb]
        by_cases hdesc : r.m_description = ""
        · refine ⟨QTestResult.label r, "", ?_, ?_⟩
          · simp only [hdesc, if_true, String.append_empty]
          · simp only [hdesc, if_true, String.append_empty]
        · refine ⟨QTestResult.label r ++ (": "
              ++ QString.left r.m_description (QString.indexOf r.m_description '(')),
            "\n" ++ QString.mid r.m_description (QString.indexOf r.m_description '('),
            ?_, ?_⟩
          · simp only [hdesc, if_false, Bool.false_eq_true, String.append_empty]
          · simp only [hdesc, if_false, if_true, String.append_assoc]
      · rw [if_neg hb, if_neg hb]
        exact TestResult.outputString_false_start _
  · intro r
    rw [GTestResult.outputString_by_group, GTestResult.outputString_by_group]
    by_cases hg : r.m_result = E.Pass ∨ r.m_result = E.Fail
    · rw [if_pos hg, if_pos hg]
      refine ⟨r.m_testSetName,
        if r.m_description ≠ "" then "\n" ++ r.m_description else "", ?_, ?_⟩
      · simp only [Bool.false_eq_true, false_and, if_false, String.append_empty]
      · simp only [true_and]
    · rw [if_neg hg, if_neg hg]
      exact TestResult.outputString_false_start _

/-- C16: the base `outputString(false)` has no line feed, and it equals
`outputString(true)` if and only if the description has no line feed. -/
theorem TestResult_outputString_unselected_no_newline (r : TestResult) :
    (∃ a : String, TestResult.outputString r false = some a ∧ '\n' ∉ a.data)
    ∧ (TestResult.outputString r false = TestResult.outputString r true
        ↔ '\n' ∉ r.m_description.data) := by
  constructor
  · refine ⟨_, (TestResult.outputString_cases r).2, ?_⟩
    intro hmem
    have h := List.mem_takeWhile_imp hmem
    simp at h
  · rw [(TestResult.outputString_cases r).1, (TestResult.outputString_cases r).2]
    constructor
    · intro h hmem
      have h2 : r.m_description.data.takeWhile (fun c => !decide (c = '\n'))
          = r.m_description.data := congrArg String.data (Option.some.inj h)
      have h3 := (List.takeWhile_eq_self_iff.1 h2) '\n' hmem
      simp at h3
    · intro h
      rw [takeWhile_ne_of_not_mem _ _ h]

end RenderingFurther

end Internal
end Autotest
